import Mathlib

/-!
Shallow embedding of the Lavash Bakery Express + MySQL API server
(`server.js` routes together with the MySQL schema).

The durable state (tables `customers`, `orders`, `payments`, with
AUTO_INCREMENT id counters starting at 1) is a `Store`.  Each mutating
endpoint is a pure function `Store → input → Store × Except ApiError result`:
the returned store is the post-call state, which on any error equals the
pre-call store — exactly the commit/rollback discipline of the route
handlers.  DECIMAL(12,2) money columns are modelled as `Int` (fixed-point
values; no operation divides or rounds).  The DATETIME / TIMESTAMP columns
(`order_date`, `payment_date`) default to the insertion time and are never
read by any modelled operation, so they are omitted; `created_at` is kept as
an opaque `Nat` because the customer-update frame condition mentions it.
JavaScript `x || null` on string fields (falsy empty string becomes NULL) is
`orNull`; JS falsiness of the numeric fields in `if (!customer_id || !amount)`
is missing-or-zero.
-/

namespace Lavash

/-- The `status` ENUM of the `orders` table. -/
inductive OrderStatus
  | pending
  | paid
deriving DecidableEq, Repr

/-- A row of the `customers` table. -/
structure CustomerRow where
  id : Nat
  name : String
  phone : Option String
  current_balance : Int
  created_at : Nat
deriving DecidableEq, Repr

/-- A row of the `orders` table. -/
structure OrderRow where
  id : Nat
  customer_id : Nat
  quantity : Int
  unit_price : Int
  total_price : Int
  status : OrderStatus
  order_group_id : Option String
deriving DecidableEq, Repr

/-- A row of the `payments` table. -/
structure PaymentRow where
  id : Nat
  customer_id : Nat
  amount : Int
  note : Option String
deriving DecidableEq, Repr

/-- The whole database: three tables plus their AUTO_INCREMENT counters. -/
structure Store where
  customers : List CustomerRow
  orders : List OrderRow
  payments : List PaymentRow
  nextCustomerId : Nat
  nextOrderId : Nat
  nextPaymentId : Nat
deriving DecidableEq, Repr

/-- A fresh database: empty tables, AUTO_INCREMENT counters at 1. -/
def emptyStore : Store :=
  { customers := [], orders := [], payments := [],
    nextCustomerId := 1, nextOrderId := 1, nextPaymentId := 1 }

/-- The error taxonomy of the route handlers.  The two delete-guard
conflicts carry different human-readable messages in the code, so they are
kept distinct here; both are the spec's Conflict. -/
inductive ApiError
  | validation
  | notFound
  | conflictOrders
  | conflictPayments
  | txFailure
deriving DecidableEq, Repr

/-- JS `x || null` on an optional string: an absent or empty (falsy) string
becomes NULL. -/
def orNull : Option String → Option String
  | none => none
  | some v => if v = "" then none else some v

/-- JS `String.prototype.trim()`: strip whitespace from both ends.  Defined
over the character list so that it computes by structural recursion. -/
def jsTrim (s : String) : String :=
  ⟨((s.data.dropWhile Char.isWhitespace).reverse.dropWhile
      Char.isWhitespace).reverse⟩

/-- Query `SELECT * FROM customers WHERE id = ?` (first row). -/
def findCustomer (s : Store) (cid : Nat) : Option CustomerRow :=
  s.customers.find? (fun c => c.id == cid)

/-- Whether a customer row with the given id exists (the FK target check of
`fk_orders_customer` / `fk_payments_customer`). -/
def customerExists (s : Store) (cid : Nat) : Bool :=
  s.customers.any (fun c => c.id == cid)

-- ============================================================
-- POST /customers
-- ============================================================

/-- Route `POST /customers`: requires a non-empty trimmed name, inserts with
balance 0, returns the created row. -/
def createCustomer (s : Store) (name phone : Option String) :
    Store × Except ApiError CustomerRow :=
  match name with
  | none => (s, Except.error ApiError.validation)
  | some nm =>
    if jsTrim nm = "" then (s, Except.error ApiError.validation)
    else
      let c : CustomerRow :=
        { id := s.nextCustomerId, name := jsTrim nm, phone := orNull phone,
          current_balance := 0, created_at := 0 }
      ({ s with customers := s.customers ++ [c],
                nextCustomerId := s.nextCustomerId + 1 },
       Except.ok c)

-- ============================================================
-- PUT /customers/:id
-- ============================================================

/-- Route `PUT /customers/:id`: `UPDATE customers SET name = ?, phone = ? WHERE
id = ?`; 404 when no row matched; returns the re-selected row. -/
def updateCustomer (s : Store) (id : Nat) (name phone : Option String) :
    Store × Except ApiError CustomerRow :=
  match name with
  | none => (s, Except.error ApiError.validation)
  | some nm =>
    if jsTrim nm = "" then (s, Except.error ApiError.validation)
    else if customerExists s id then
      let s1 : Store :=
        { s with customers := s.customers.map (fun c =>
            if c.id == id then { c with name := jsTrim nm, phone := orNull phone }
            else c) }
      match findCustomer s1 id with
      | some c => (s1, Except.ok c)
      | none => (s1, Except.error ApiError.notFound)
    else (s, Except.error ApiError.notFound)

-- ============================================================
-- DELETE /customers/:id
-- ============================================================

/-- Route `DELETE /customers/:id`: counts the customer's orders, then their
payments (each count blocking with a conflict), then deletes; 404 when the
DELETE affected no row. -/
def deleteCustomer (s : Store) (id : Nat) : Store × Except ApiError Unit :=
  if (s.orders.filter (fun o => o.customer_id == id)).length > 0 then
    (s, Except.error ApiError.conflictOrders)
  else if (s.payments.filter (fun p => p.customer_id == id)).length > 0 then
    (s, Except.error ApiError.conflictPayments)
  else
    let remaining := s.customers.filter (fun c => !(c.id == id))
    if remaining.length = s.customers.length then
      (s, Except.error ApiError.notFound)
    else
      ({ s with customers := remaining }, Except.ok ())

-- ============================================================
-- POST /orders
-- ============================================================

/-- One entry of the request body of `POST /orders`. -/
structure OrderSpec where
  customer_id : Nat
  quantity : Int
  unit_price : Int
  total_price : Int
  order_group_id : Option String
deriving DecidableEq, Repr

/-- The request body of `POST /orders`: either not an array at all, or a
list of entries. -/
inductive OrdersBody
  | notArray
  | array (entries : List OrderSpec)
deriving DecidableEq, Repr

/-- Statement `UPDATE customers SET current_balance = current_balance + ? WHERE id = ?`. -/
def incBalance (cs : List CustomerRow) (cid : Nat) (amt : Int) : List CustomerRow :=
  cs.map (fun c =>
    if c.id == cid then { c with current_balance := c.current_balance + amt }
    else c)

/-- One iteration of the `POST /orders` loop: insert the order row (the FK
constraint rejects an unknown `customer_id`) and bump the customer's
balance by `total_price`.  `none` models the statement failing, which
aborts the transaction. -/
def insertOrderEntry (s : Store) (e : OrderSpec) : Option (Store × Nat) :=
  if customerExists s e.customer_id then
    let row : OrderRow :=
      { id := s.nextOrderId, customer_id := e.customer_id,
        quantity := e.quantity, unit_price := e.unit_price,
        total_price := e.total_price, status := OrderStatus.pending,
        order_group_id := orNull e.order_group_id }
    some ({ s with orders := s.orders ++ [row],
                   nextOrderId := s.nextOrderId + 1,
                   customers := incBalance s.customers e.customer_id e.total_price },
          s.nextOrderId)
  else none

/-- The `for (const order of orders)` loop, collecting inserted ids in input
order; `none` when any iteration fails. -/
def ordersLoop (s : Store) : List OrderSpec → Option (Store × List Nat)
  | [] => some (s, [])
  | e :: rest =>
    match insertOrderEntry s e with
    | none => none
    | some (s1, oid) =>
      match ordersLoop s1 rest with
      | none => none
      | some (s2, ids) => some (s2, oid :: ids)

/-- Route `POST /orders`: validation, then the whole loop inside one transaction —
commit on success, rollback (pre-call store) on any failure. -/
def createOrders (s : Store) (body : OrdersBody) :
    Store × Except ApiError (List Nat) :=
  match body with
  | OrdersBody.notArray => (s, Except.error ApiError.validation)
  | OrdersBody.array entries =>
    if entries.length = 0 then (s, Except.error ApiError.validation)
    else
      match ordersLoop s entries with
      | some (s2, ids) => (s2, Except.ok ids)
      | none => (s, Except.error ApiError.txFailure)

-- ============================================================
-- POST /payments
-- ============================================================

/-- The request body of `POST /payments`; `none` in a numeric field means
the field is absent from the JSON body. -/
structure PaymentBody where
  customer_id : Option Nat
  amount : Option Int
  note : Option String
deriving DecidableEq, Repr

/-- Statement `UPDATE customers SET current_balance = current_balance - ? WHERE id = ?`. -/
def decBalance (cs : List CustomerRow) (cid : Nat) (amt : Int) : List CustomerRow :=
  cs.map (fun c =>
    if c.id == cid then { c with current_balance := c.current_balance - amt }
    else c)

/-- Statement `UPDATE orders SET status = paid WHERE customer_id = ? AND
status = pending` (the settlement update). -/
def markPaid (os : List OrderRow) (cid : Nat) : List OrderRow :=
  os.map (fun o =>
    if o.customer_id == cid && o.status == OrderStatus.pending then
      { o with status := OrderStatus.paid }
    else o)

/-- Route `POST /payments`: falsiness validation (`!customer_id || !amount`), then
in one transaction: insert the payment row (FK check), decrement the
balance, re-read it, and when it is ≤ 0 mark all of the customer's pending
orders paid.  Commit returns the created payment row; any failure rolls
back to the pre-call store. -/
def createPayment (s : Store) (b : PaymentBody) :
    Store × Except ApiError PaymentRow :=
  match b.customer_id, b.amount with
  | some cid, some amt =>
    if cid == 0 || amt == 0 then (s, Except.error ApiError.validation)
    else if customerExists s cid then
      let prow : PaymentRow :=
        { id := s.nextPaymentId, customer_id := cid, amount := amt,
          note := orNull b.note }
      let s1 : Store :=
        { s with payments := s.payments ++ [prow],
                 nextPaymentId := s.nextPaymentId + 1,
                 customers := decBalance s.customers cid amt }
      let doSettle : Bool :=
        match findCustomer s1 cid with
        | some c => decide (c.current_balance ≤ 0)
        | none => false
      let s2 : Store :=
        if doSettle then { s1 with orders := markPaid s1.orders cid } else s1
      (s2, Except.ok prow)
    else (s, Except.error ApiError.txFailure)
  | _, _ => (s, Except.error ApiError.validation)

-- ============================================================
-- Sequences of operations
-- ============================================================

/-- One mutating API call. -/
inductive Op
  | createCust (name phone : Option String)
  | updateCust (id : Nat) (name phone : Option String)
  | deleteCust (id : Nat)
  | createOrds (body : OrdersBody)
  | createPay (b : PaymentBody)
deriving DecidableEq, Repr

/-- The store after one API call (identical to the pre-call store when the
call failed, by the rollback discipline). -/
def applyOp (s : Store) : Op → Store
  | Op.createCust n p => (createCustomer s n p).1
  | Op.updateCust i n p => (updateCustomer s i n p).1
  | Op.deleteCust i => (deleteCustomer s i).1
  | Op.createOrds b => (createOrders s b).1
  | Op.createPay b => (createPayment s b).1

/-- The store after a sequence of API calls. -/
def run (s : Store) (ops : List Op) : Store :=
  ops.foldl applyOp s

-- ============================================================
-- Ledger predicates
-- ============================================================

/-- Aggregate `SELECT SUM(total_price) FROM orders WHERE customer_id = ?` (0 when
empty). -/
def ordersTotal (os : List OrderRow) (cid : Nat) : Int :=
  ((os.filter (fun o => o.customer_id == cid)).map (fun o => o.total_price)).sum

/-- Aggregate `SELECT SUM(amount) FROM payments WHERE customer_id = ?` (0 when
empty). -/
def paymentsTotal (ps : List PaymentRow) (cid : Nat) : Int :=
  ((ps.filter (fun p => p.customer_id == cid)).map (fun p => p.amount)).sum

/-- List-level ledger invariant: every customer row's balance is the sum of
that customer's order totals minus the sum of their payment amounts. -/
def ledgerInv (cs : List CustomerRow) (os : List OrderRow)
    (ps : List PaymentRow) : Prop :=
  ∀ c ∈ cs, c.current_balance = ordersTotal os c.id - paymentsTotal ps c.id

/-- The ledger invariant of a store. -/
def BalanceInv (s : Store) : Prop :=
  ledgerInv s.customers s.orders s.payments

/-- Referential integrity plus AUTO_INCREMENT freshness: customer ids are
below the id counter, and every order and payment references an existing
customer (the schema's foreign keys). -/
def WF (s : Store) : Prop :=
  (∀ c ∈ s.customers, c.id < s.nextCustomerId) ∧
  (∀ o ∈ s.orders, ∃ c ∈ s.customers, c.id = o.customer_id) ∧
  (∀ p ∈ s.payments, ∃ c ∈ s.customers, c.id = p.customer_id)

instance (cs : List CustomerRow) (os : List OrderRow) (ps : List PaymentRow) :
    Decidable (ledgerInv cs os ps) := by
  unfold ledgerInv; infer_instance

instance (s : Store) : Decidable (BalanceInv s) := by
  unfold BalanceInv; infer_instance

instance (s : Store) : Decidable (WF s) := by
  unfold WF; infer_instance

-- ============================================================
-- Basic lemmas about the embedded SQL statements
-- ============================================================

theorem customerExists_iff (s : Store) (cid : Nat) :
    customerExists s cid = true ↔ ∃ c ∈ s.customers, c.id = cid := by
  simp [customerExists, List.any_eq_true, beq_iff_eq]

theorem ordersTotal_append (os1 os2 : List OrderRow) (cid : Nat) :
    ordersTotal (os1 ++ os2) cid = ordersTotal os1 cid + ordersTotal os2 cid := by
  simp [ordersTotal, List.filter_append]

theorem ordersTotal_single (row : OrderRow) (cid : Nat) :
    ordersTotal [row] cid = if row.customer_id = cid then row.total_price else 0 := by
  by_cases h : row.customer_id = cid <;>
    simp [ordersTotal, List.filter_cons, h]

theorem ordersTotal_snoc (os : List OrderRow) (row : OrderRow) (cid : Nat) :
    ordersTotal (os ++ [row]) cid =
      ordersTotal os cid + (if row.customer_id = cid then row.total_price else 0) := by
  rw [ordersTotal_append, ordersTotal_single]

theorem paymentsTotal_append (ps1 ps2 : List PaymentRow) (cid : Nat) :
    paymentsTotal (ps1 ++ ps2) cid = paymentsTotal ps1 cid + paymentsTotal ps2 cid := by
  simp [paymentsTotal, List.filter_append]

theorem paymentsTotal_single (prow : PaymentRow) (cid : Nat) :
    paymentsTotal [prow] cid = if prow.customer_id = cid then prow.amount else 0 := by
  by_cases h : prow.customer_id = cid <;>
    simp [paymentsTotal, List.filter_cons, h]

theorem paymentsTotal_snoc (ps : List PaymentRow) (prow : PaymentRow) (cid : Nat) :
    paymentsTotal (ps ++ [prow]) cid =
      paymentsTotal ps cid + (if prow.customer_id = cid then prow.amount else 0) := by
  rw [paymentsTotal_append, paymentsTotal_single]

theorem ordersTotal_map (f : OrderRow → OrderRow)
    (hid : ∀ o, (f o).customer_id = o.customer_id)
    (hp : ∀ o, (f o).total_price = o.total_price)
    (os : List OrderRow) (cid : Nat) :
    ordersTotal (os.map f) cid = ordersTotal os cid := by
  induction os with
  | nil => rfl
  | cons o rest ih =>
    show ordersTotal (f o :: rest.map f) cid = ordersTotal (o :: rest) cid
    by_cases h : o.customer_id = cid <;>
      simp [ordersTotal, List.filter_cons, hid, hp, h] at ih ⊢ <;>
      simpa [ordersTotal] using ih

theorem ordersTotal_markPaid (os : List OrderRow) (cid cid' : Nat) :
    ordersTotal (markPaid os cid) cid' = ordersTotal os cid' := by
  unfold markPaid
  apply ordersTotal_map <;> intro o <;> dsimp <;> split <;> rfl

theorem ordersTotal_nil_of_no_ref (os : List OrderRow) (cid : Nat)
    (h : ∀ o ∈ os, o.customer_id ≠ cid) : ordersTotal os cid = 0 := by
  unfold ordersTotal
  have hf : os.filter (fun o => o.customer_id == cid) = [] := by
    rw [List.filter_eq_nil_iff]
    intro o ho
    simpa using h o ho
  simp [hf]

theorem paymentsTotal_nil_of_no_ref (ps : List PaymentRow) (cid : Nat)
    (h : ∀ p ∈ ps, p.customer_id ≠ cid) : paymentsTotal ps cid = 0 := by
  unfold paymentsTotal
  have hf : ps.filter (fun p => p.customer_id == cid) = [] := by
    rw [List.filter_eq_nil_iff]
    intro p hp
    simpa using h p hp
  simp [hf]

theorem find?_map_comm {α β : Type} (f : α → β) (p : β → Bool) (l : List α) :
    (l.map f).find? p = (l.find? (fun a => p (f a))).map f := by
  induction l with
  | nil => rfl
  | cons a l ih =>
    by_cases h : p (f a)
    · simp [List.find?_cons_of_pos, h]
    · simp [List.find?_cons_of_neg, h, ih]

theorem exists_mem_map_with_id (f : CustomerRow → CustomerRow)
    (hid : ∀ c, (f c).id = c.id) (cs : List CustomerRow) (tid : Nat)
    (h : ∃ c ∈ cs, c.id = tid) : ∃ c ∈ cs.map f, c.id = tid := by
  obtain ⟨c, hc, rfl⟩ := h
  exact ⟨f c, List.mem_map_of_mem f hc, hid c⟩

theorem incBalance_id_preserve (cid : Nat) (amt : Int) (c : CustomerRow) :
    (if c.id == cid then { c with current_balance := c.current_balance + amt }
     else c).id = c.id := by
  split <;> rfl

theorem decBalance_id_preserve (cid : Nat) (amt : Int) (c : CustomerRow) :
    (if c.id == cid then { c with current_balance := c.current_balance - amt }
     else c).id = c.id := by
  split <;> rfl

-- ============================================================
-- Ledger invariant preservation, statement by statement
-- ============================================================

theorem ledgerInv_insertOrder (cs : List CustomerRow) (os : List OrderRow)
    (ps : List PaymentRow) (cid : Nat) (t : Int) (row : OrderRow)
    (hrc : row.customer_id = cid) (hrt : row.total_price = t)
    (h : ledgerInv cs os ps) :
    ledgerInv (incBalance cs cid t) (os ++ [row]) ps := by
  intro c' hc'
  unfold incBalance at hc'
  obtain ⟨c, hc, rfl⟩ := List.mem_map.mp hc'
  have hbase := h c hc
  rw [ordersTotal_snoc]
  by_cases hid : c.id = cid
  · simp only [hid, beq_self_eq_true, if_true, hrc, hrt]
    simp [hbase, hid]
    omega
  · simp only [beq_iff_eq, hid, if_false, hrc, hrt]
    have : ¬ cid = c.id := fun hh => hid hh.symm
    simp [hbase, this]

theorem ledgerInv_insertPayment (cs : List CustomerRow) (os : List OrderRow)
    (ps : List PaymentRow) (cid : Nat) (a : Int) (prow : PaymentRow)
    (hpc : prow.customer_id = cid) (hpa : prow.amount = a)
    (h : ledgerInv cs os ps) :
    ledgerInv (decBalance cs cid a) os (ps ++ [prow]) := by
  intro c' hc'
  unfold decBalance at hc'
  obtain ⟨c, hc, rfl⟩ := List.mem_map.mp hc'
  have hbase := h c hc
  rw [paymentsTotal_snoc]
  by_cases hid : c.id = cid
  · simp only [hid, beq_self_eq_true, if_true, hpc, hpa]
    simp [hbase, hid]
    omega
  · simp only [beq_iff_eq, hid, if_false, hpc, hpa]
    have : ¬ cid = c.id := fun hh => hid hh.symm
    simp [hbase, this]

theorem ledgerInv_markPaid (cs : List CustomerRow) (os : List OrderRow)
    (ps : List PaymentRow) (cid : Nat) (h : ledgerInv cs os ps) :
    ledgerInv cs (markPaid os cid) ps := by
  intro c hc
  rw [ordersTotal_markPaid]
  exact h c hc

theorem ledgerInv_map_customers (cs : List CustomerRow) (os : List OrderRow)
    (ps : List PaymentRow) (f : CustomerRow → CustomerRow)
    (hid : ∀ c, (f c).id = c.id)
    (hbal : ∀ c, (f c).current_balance = c.current_balance)
    (h : ledgerInv cs os ps) : ledgerInv (cs.map f) os ps := by
  intro c' hc'
  obtain ⟨c, hc, rfl⟩ := List.mem_map.mp hc'
  rw [hid, hbal]
  exact h c hc

theorem ledgerInv_filter_customers (cs : List CustomerRow) (os : List OrderRow)
    (ps : List PaymentRow) (q : CustomerRow → Bool)
    (h : ledgerInv cs os ps) : ledgerInv (cs.filter q) os ps := by
  intro c hc
  exact h c (List.mem_of_mem_filter hc)

theorem ledgerInv_newCustomer (cs : List CustomerRow) (os : List OrderRow)
    (ps : List PaymentRow) (c0 : CustomerRow)
    (hbal : c0.current_balance = 0)
    (hno : ∀ o ∈ os, o.customer_id ≠ c0.id)
    (hnp : ∀ p ∈ ps, p.customer_id ≠ c0.id)
    (h : ledgerInv cs os ps) : ledgerInv (cs ++ [c0]) os ps := by
  intro c hc
  rcases List.mem_append.mp hc with hc | hc
  · exact h c hc
  · have hc0 : c = c0 := List.mem_singleton.mp hc
    subst hc0
    rw [hbal, ordersTotal_nil_of_no_ref os c.id hno,
        paymentsTotal_nil_of_no_ref ps c.id hnp]
    omega

-- ============================================================
-- Referential-integrity preservation helpers
-- ============================================================

theorem exists_id_incBalance (cs : List CustomerRow) (cid : Nat) (amt : Int)
    (tid : Nat) (h : ∃ c ∈ cs, c.id = tid) :
    ∃ c ∈ incBalance cs cid amt, c.id = tid := by
  unfold incBalance
  exact exists_mem_map_with_id _ (incBalance_id_preserve cid amt) cs tid h

theorem exists_id_decBalance (cs : List CustomerRow) (cid : Nat) (amt : Int)
    (tid : Nat) (h : ∃ c ∈ cs, c.id = tid) :
    ∃ c ∈ decBalance cs cid amt, c.id = tid := by
  unfold decBalance
  exact exists_mem_map_with_id _ (decBalance_id_preserve cid amt) cs tid h

theorem bound_map_customers (f : CustomerRow → CustomerRow)
    (hid : ∀ c, (f c).id = c.id) (cs : List CustomerRow) (N : Nat)
    (h : ∀ c ∈ cs, c.id < N) : ∀ c ∈ cs.map f, c.id < N := by
  intro c' hc'
  obtain ⟨c, hc, rfl⟩ := List.mem_map.mp hc'
  rw [hid]
  exact h c hc

theorem map_id_of_id_preserve (f : CustomerRow → CustomerRow)
    (hid : ∀ c, (f c).id = c.id) (cs : List CustomerRow) :
    (cs.map f).map (fun c => c.id) = cs.map (fun c => c.id) := by
  induction cs with
  | nil => rfl
  | cons c rest ih => simp only [List.map_cons, hid, ih]

theorem customerExists_eq_of_ids (s1 s : Store)
    (h : s1.customers.map (fun c => c.id) = s.customers.map (fun c => c.id))
    (cid : Nat) : customerExists s1 cid = customerExists s cid := by
  have h1 : ∀ cs : List CustomerRow,
      cs.any (fun c => c.id == cid) = (cs.map (fun c => c.id)).any (fun i => i == cid) := by
    intro cs
    induction cs with
    | nil => rfl
    | cons c rest ih => simp [List.any_cons, ih]
  unfold customerExists
  rw [h1, h1, h]

theorem markPaid_cid_preserve (cid : Nat) (o : OrderRow) :
    (if o.customer_id == cid && o.status == OrderStatus.pending then
       { o with status := OrderStatus.paid }
     else o).customer_id = o.customer_id := by
  split <;> rfl

theorem exists_order_markPaid (os : List OrderRow) (cid : Nat) (o' : OrderRow)
    (h : o' ∈ markPaid os cid) : ∃ o ∈ os, o'.customer_id = o.customer_id := by
  unfold markPaid at h
  obtain ⟨o, ho, rfl⟩ := List.mem_map.mp h
  exact ⟨o, ho, markPaid_cid_preserve cid o⟩

-- ============================================================
-- The POST /orders loop
-- ============================================================

theorem insertOrderEntry_some (s : Store) (e : OrderSpec) (s1 : Store) (oid : Nat)
    (h : insertOrderEntry s e = some (s1, oid)) :
    customerExists s e.customer_id = true ∧
    oid = s.nextOrderId ∧
    s1.customers = incBalance s.customers e.customer_id e.total_price ∧
    s1.payments = s.payments ∧
    s1.nextCustomerId = s.nextCustomerId ∧
    s1.nextPaymentId = s.nextPaymentId ∧
    s1.nextOrderId = s.nextOrderId + 1 ∧
    s1.orders = s.orders ++
      [{ id := s.nextOrderId, customer_id := e.customer_id,
         quantity := e.quantity, unit_price := e.unit_price,
         total_price := e.total_price, status := OrderStatus.pending,
         order_group_id := orNull e.order_group_id }] := by
  unfold insertOrderEntry at h
  split at h
  · next hex =>
    simp only [Option.some.injEq, Prod.mk.injEq] at h
    obtain ⟨h1, h2⟩ := h
    subst h1
    subst h2
    exact ⟨hex, rfl, rfl, rfl, rfl, rfl, rfl, rfl⟩
  · cases h

theorem wf_insertOrderEntry (s : Store) (e : OrderSpec) (s1 : Store) (oid : Nat)
    (h : insertOrderEntry s e = some (s1, oid)) (hwf : WF s) : WF s1 := by
  obtain ⟨hex, -, hcs, hps, hncid, -, -, hos⟩ := insertOrderEntry_some s e s1 oid h
  obtain ⟨hb, ho, hp⟩ := hwf
  refine ⟨?_, ?_, ?_⟩
  · rw [hcs, hncid]
    unfold incBalance
    exact bound_map_customers _ (incBalance_id_preserve _ _) _ _ hb
  · rw [hos, hcs]
    intro o ho'
    rcases List.mem_append.mp ho' with hh | hh
    · exact exists_id_incBalance _ _ _ _ (ho o hh)
    · have hoe : o.customer_id = e.customer_id := by
        rw [List.mem_singleton.mp hh]
      rw [hoe]
      exact exists_id_incBalance _ _ _ _ ((customerExists_iff s e.customer_id).mp hex)
  · rw [hps, hcs]
    intro p hp'
    exact exists_id_incBalance _ _ _ _ (hp p hp')

theorem inv_insertOrderEntry (s : Store) (e : OrderSpec) (s1 : Store) (oid : Nat)
    (h : insertOrderEntry s e = some (s1, oid)) (hinv : BalanceInv s) :
    BalanceInv s1 := by
  obtain ⟨-, -, hcs, hps, -, -, -, hos⟩ := insertOrderEntry_some s e s1 oid h
  unfold BalanceInv
  rw [hcs, hps, hos]
  exact ledgerInv_insertOrder _ _ _ _ _ _ rfl rfl hinv

theorem insertOrderEntry_ids (s : Store) (e : OrderSpec) (s1 : Store) (oid : Nat)
    (h : insertOrderEntry s e = some (s1, oid)) :
    s1.customers.map (fun c => c.id) = s.customers.map (fun c => c.id) := by
  obtain ⟨-, -, hcs, -⟩ := insertOrderEntry_some s e s1 oid h
  rw [hcs]
  unfold incBalance
  exact map_id_of_id_preserve _ (incBalance_id_preserve _ _) _

theorem ordersLoop_preserves (entries : List OrderSpec) :
    ∀ s s2 : Store, ∀ ids : List Nat, ordersLoop s entries = some (s2, ids) →
      WF s → BalanceInv s → WF s2 ∧ BalanceInv s2 := by
  induction entries with
  | nil =>
    intro s s2 ids h hwf hinv
    unfold ordersLoop at h
    simp only [Option.some.injEq, Prod.mk.injEq] at h
    obtain ⟨rfl, rfl⟩ := h
    exact ⟨hwf, hinv⟩
  | cons e rest ih =>
    intro s s2 ids h hwf hinv
    unfold ordersLoop at h
    split at h
    · cases h
    · next s1 oid he =>
      split at h
      · cases h
      · next s2x idsx hl =>
        simp only [Option.some.injEq, Prod.mk.injEq] at h
        obtain ⟨rfl, rfl⟩ := h
        exact ih s1 _ _ hl (wf_insertOrderEntry s e s1 oid he hwf)
          (inv_insertOrderEntry s e s1 oid he hinv)

theorem ordersLoop_orders_extend (entries : List OrderSpec) :
    ∀ s s2 : Store, ∀ ids : List Nat, ordersLoop s entries = some (s2, ids) →
      ∃ new, s2.orders = s.orders ++ new := by
  induction entries with
  | nil =>
    intro s s2 ids h
    unfold ordersLoop at h
    simp only [Option.some.injEq, Prod.mk.injEq] at h
    obtain ⟨rfl, rfl⟩ := h
    exact ⟨[], by simp⟩
  | cons e rest ih =>
    intro s s2 ids h
    unfold ordersLoop at h
    split at h
    · cases h
    · next s1 oid he =>
      split at h
      · cases h
      · next s2x idsx hl =>
        simp only [Option.some.injEq, Prod.mk.injEq] at h
        obtain ⟨rfl, rfl⟩ := h
        obtain ⟨-, -, -, -, -, -, -, hos⟩ := insertOrderEntry_some s e s1 oid he
        obtain ⟨new, hnew⟩ := ih s1 _ _ hl
        refine ⟨[{ id := s.nextOrderId, customer_id := e.customer_id,
                   quantity := e.quantity, unit_price := e.unit_price,
                   total_price := e.total_price, status := OrderStatus.pending,
                   order_group_id := orNull e.order_group_id }] ++ new, ?_⟩
        rw [hnew, hos, List.append_assoc]

theorem ordersLoop_fails_on_unknown (entries : List OrderSpec) :
    ∀ s : Store, (∃ e ∈ entries, customerExists s e.customer_id = false) →
      ordersLoop s entries = none := by
  induction entries with
  | nil =>
    intro s h
    obtain ⟨e, he, -⟩ := h
    cases he
  | cons e rest ih =>
    intro s h
    obtain ⟨e0, he0, hfalse⟩ := h
    unfold ordersLoop
    rcases List.mem_cons.mp he0 with heq | hmem
    · have hnone : insertOrderEntry s e = none := by
        unfold insertOrderEntry
        rw [heq] at hfalse
        simp [hfalse]
      rw [hnone]
    · split
      · rfl
      · next s1 oid he =>
        have hids := insertOrderEntry_ids s e s1 oid he
        have hfalse1 : customerExists s1 e0.customer_id = false := by
          rw [customerExists_eq_of_ids s1 s hids]
          exact hfalse
        rw [ih s1 ⟨e0, hmem, hfalse1⟩]

-- ============================================================
-- Preservation across each endpoint
-- ============================================================

theorem preserve_createCust (s : Store) (n p : Option String)
    (hwf : WF s) (hinv : BalanceInv s) :
    WF (createCustomer s n p).1 ∧ BalanceInv (createCustomer s n p).1 := by
  obtain ⟨hb, ho, hp⟩ := hwf
  cases n with
  | none => exact ⟨⟨hb, ho, hp⟩, hinv⟩
  | some nm =>
    by_cases ht : jsTrim nm = ""
    · simp only [createCustomer, ht, if_pos]
      exact ⟨⟨hb, ho, hp⟩, hinv⟩
    · simp only [createCustomer, if_neg ht]
      refine ⟨⟨?_, ?_, ?_⟩, ?_⟩
      · intro c hc
        rcases List.mem_append.mp hc with hh | hh
        · exact Nat.lt_succ_of_lt (hb c hh)
        · rw [List.mem_singleton.mp hh]
          exact Nat.lt_succ_self _
      · intro o ho'
        obtain ⟨c, hc, hcid⟩ := ho o ho'
        exact ⟨c, List.mem_append_left _ hc, hcid⟩
      · intro q hq'
        obtain ⟨c, hc, hcid⟩ := hp q hq'
        exact ⟨c, List.mem_append_left _ hc, hcid⟩
      · refine ledgerInv_newCustomer _ _ _ _ rfl ?_ ?_ hinv
        · intro o ho'
          obtain ⟨c, hc, hcid⟩ := ho o ho'
          have := hb c hc
          show o.customer_id ≠ s.nextCustomerId
          omega
        · intro q hq'
          obtain ⟨c, hc, hcid⟩ := hp q hq'
          have := hb c hc
          show q.customer_id ≠ s.nextCustomerId
          omega

theorem updateCustomer_fst (s : Store) (id : Nat) (n p : Option String) :
    (updateCustomer s id n p).1 = s ∨
    (updateCustomer s id n p).1 =
      { s with customers := s.customers.map (fun c =>
          if c.id == id then
            { c with name := jsTrim (n.getD ""), phone := orNull p }
          else c) } := by
  unfold updateCustomer
  split
  · exact Or.inl rfl
  · split
    · exact Or.inl rfl
    · split
      · right
        dsimp only
        split
        · rfl
        · rfl
      · exact Or.inl rfl

theorem preserve_updateCust (s : Store) (id : Nat) (n p : Option String)
    (hwf : WF s) (hinv : BalanceInv s) :
    WF (updateCustomer s id n p).1 ∧ BalanceInv (updateCustomer s id n p).1 := by
  rcases updateCustomer_fst s id n p with heq | heq
  · rw [heq]
    exact ⟨hwf, hinv⟩
  · rw [heq]
    obtain ⟨hb, ho, hp⟩ := hwf
    have hid : ∀ c : CustomerRow,
        (if c.id == id then
           { c with name := jsTrim (n.getD ""), phone := orNull p }
         else c).id = c.id := by
      intro c
      split <;> rfl
    have hbal : ∀ c : CustomerRow,
        (if c.id == id then
           { c with name := jsTrim (n.getD ""), phone := orNull p }
         else c).current_balance = c.current_balance := by
      intro c
      split <;> rfl
    refine ⟨⟨?_, ?_, ?_⟩, ?_⟩
    · exact bound_map_customers _ hid _ _ hb
    · intro o ho'
      exact exists_mem_map_with_id _ hid _ _ (ho o ho')
    · intro q hq'
      exact exists_mem_map_with_id _ hid _ _ (hp q hq')
    · exact ledgerInv_map_customers _ _ _ _ hid hbal hinv

theorem preserve_deleteCust (s : Store) (id : Nat)
    (hwf : WF s) (hinv : BalanceInv s) :
    WF (deleteCustomer s id).1 ∧ BalanceInv (deleteCustomer s id).1 := by
  obtain ⟨hb, ho, hp⟩ := hwf
  unfold deleteCustomer
  split
  · exact ⟨⟨hb, ho, hp⟩, hinv⟩
  · next h1 =>
    split
    · exact ⟨⟨hb, ho, hp⟩, hinv⟩
    · next h2 =>
      have hno : ∀ o ∈ s.orders, o.customer_id ≠ id := by
        have hnil : s.orders.filter (fun o => o.customer_id == id) = [] := by
          rw [← List.length_eq_zero]
          omega
        intro o ho' hcon
        have : o ∈ s.orders.filter (fun o => o.customer_id == id) := by
          rw [List.mem_filter]
          exact ⟨ho', by simp [hcon]⟩
        simp_all
      have hnp : ∀ q ∈ s.payments, q.customer_id ≠ id := by
        have hnil : s.payments.filter (fun p => p.customer_id == id) = [] := by
          rw [← List.length_eq_zero]
          omega
        intro q hq hcon
        have : q ∈ s.payments.filter (fun p => p.customer_id == id) := by
          rw [List.mem_filter]
          exact ⟨hq, by simp [hcon]⟩
        simp_all
      dsimp only
      split
      · exact ⟨⟨hb, ho, hp⟩, hinv⟩
      · refine ⟨⟨?_, ?_, ?_⟩, ?_⟩
        · intro c hc
          exact hb c (List.mem_of_mem_filter hc)
        · intro o ho'
          obtain ⟨c, hc, hcid⟩ := ho o ho'
          refine ⟨c, ?_, hcid⟩
          rw [List.mem_filter]
          refine ⟨hc, ?_⟩
          have : c.id ≠ id := by
            rw [hcid]
            exact hno o ho'
          simp [this]
        · intro q hq'
          obtain ⟨c, hc, hcid⟩ := hp q hq'
          refine ⟨c, ?_, hcid⟩
          rw [List.mem_filter]
          refine ⟨hc, ?_⟩
          have : c.id ≠ id := by
            rw [hcid]
            exact hnp q hq'
          simp [this]
        · exact ledgerInv_filter_customers _ _ _ _ hinv

theorem createOrders_array_pos (s : Store) (entries : List OrderSpec)
    (h0 : ¬ entries.length = 0) :
    createOrders s (OrdersBody.array entries) =
      (match ordersLoop s entries with
       | some (s2, ids) => (s2, Except.ok ids)
       | none => (s, Except.error ApiError.txFailure)) := by
  unfold createOrders
  dsimp only
  rw [if_neg h0]

theorem createOrders_fst_cases (s : Store) (body : OrdersBody) :
    (createOrders s body).1 = s ∨
    ∃ entries s2 ids, body = OrdersBody.array entries ∧
      ordersLoop s entries = some (s2, ids) ∧ (createOrders s body).1 = s2 := by
  cases body with
  | notArray => exact Or.inl rfl
  | array entries =>
    by_cases h0 : entries.length = 0
    · left
      unfold createOrders
      dsimp only
      rw [if_pos h0]
    · rcases hl : ordersLoop s entries with _ | ⟨s2, ids⟩
      · left
        rw [createOrders_array_pos s entries h0, hl]
      · right
        refine ⟨entries, s2, ids, rfl, hl, ?_⟩
        rw [createOrders_array_pos s entries h0, hl]

theorem preserve_createOrds (s : Store) (body : OrdersBody)
    (hwf : WF s) (hinv : BalanceInv s) :
    WF (createOrders s body).1 ∧ BalanceInv (createOrders s body).1 := by
  rcases createOrders_fst_cases s body with heq | ⟨entries, s2, ids, -, hl, heq⟩
  · rw [heq]
    exact ⟨hwf, hinv⟩
  · rw [heq]
    exact ordersLoop_preserves entries s s2 ids hl hwf hinv

theorem find?_some_of_any (cs : List CustomerRow) (cid : Nat)
    (h : cs.any (fun c => c.id == cid) = true) :
    ∃ c, cs.find? (fun c => c.id == cid) = some c ∧ c.id = cid := by
  induction cs with
  | nil => simp at h
  | cons c rest ih =>
    by_cases hc : (c.id == cid) = true
    · refine ⟨c, ?_, by simpa using hc⟩
      simp only [List.find?, hc]
    · have hcf : (c.id == cid) = false := by
        simpa using hc
      rw [List.any_cons] at h
      simp only [hcf, Bool.false_or] at h
      obtain ⟨c0, hfind, hid⟩ := ih h
      refine ⟨c0, ?_, hid⟩
      simp only [List.find?, hcf]
      exact hfind

theorem decBalance_ids (cs : List CustomerRow) (cid : Nat) (amt : Int) :
    (decBalance cs cid amt).map (fun c => c.id) = cs.map (fun c => c.id) := by
  unfold decBalance
  exact map_id_of_id_preserve _ (decBalance_id_preserve _ _) _

theorem any_id_eq_any_ids (cs : List CustomerRow) (cid : Nat) :
    cs.any (fun c => c.id == cid) =
      (cs.map (fun c => c.id)).any (fun i => i == cid) := by
  induction cs with
  | nil => rfl
  | cons c rest ih => simp [List.any_cons, ih]

theorem any_decBalance (cs : List CustomerRow) (cid amt2cid : Nat) (amt : Int)
    (h : cs.any (fun c => c.id == amt2cid) = true) :
    (decBalance cs cid amt).any (fun c => c.id == amt2cid) = true := by
  rw [any_id_eq_any_ids, decBalance_ids, ← any_id_eq_any_ids]
  exact h

/-- Shape of a successful `POST /payments`: the validation and FK checks
passed, the returned row is the inserted one, the balance re-read finds the
decremented row, and the final store is the settled or unsettled
intermediate store according to that balance. -/
theorem createPayment_ok (s : Store) (b : PaymentBody) (s2 : Store) (p : PaymentRow)
    (h : createPayment s b = (s2, Except.ok p)) :
    ∃ cid amt c1,
      b.customer_id = some cid ∧ b.amount = some amt ∧
      cid ≠ 0 ∧ amt ≠ 0 ∧ customerExists s cid = true ∧
      p = { id := s.nextPaymentId, customer_id := cid, amount := amt,
            note := orNull b.note } ∧
      findCustomer { s with payments := s.payments ++ [p],
                            nextPaymentId := s.nextPaymentId + 1,
                            customers := decBalance s.customers cid amt } cid
        = some c1 ∧
      s2 = (if c1.current_balance ≤ 0 then
              { s with payments := s.payments ++ [p],
                       nextPaymentId := s.nextPaymentId + 1,
                       customers := decBalance s.customers cid amt,
                       orders := markPaid s.orders cid }
            else
              { s with payments := s.payments ++ [p],
                       nextPaymentId := s.nextPaymentId + 1,
                       customers := decBalance s.customers cid amt }) := by
  obtain ⟨cidopt, amtopt, note⟩ := b
  cases cidopt with
  | none => simp [createPayment] at h
  | some cid =>
    cases amtopt with
    | none => simp [createPayment] at h
    | some amt =>
      unfold createPayment at h
      dsimp only at h
      split at h
      · simp at h
      · next hval =>
        split at h
        · next hex =>
          simp only [Prod.mk.injEq, Except.ok.injEq] at h
          obtain ⟨hs2, hpp⟩ := h
          subst hpp
          subst hs2
          simp only [Bool.or_eq_true, beq_iff_eq, not_or] at hval
          obtain ⟨hcid, hamt⟩ := hval
          rcases hfc : findCustomer
              { s with payments := s.payments ++
                         [{ id := s.nextPaymentId, customer_id := cid,
                            amount := amt, note := orNull note }],
                       nextPaymentId := s.nextPaymentId + 1,
                       customers := decBalance s.customers cid amt } cid
            with _ | c1
          · exfalso
            have hex1 : (decBalance s.customers cid amt).any
                (fun c => c.id == cid) = true :=
              any_decBalance s.customers cid cid amt hex
            obtain ⟨c0, hfind0, -⟩ := find?_some_of_any _ cid hex1
            rw [findCustomer] at hfc
            dsimp only at hfc
            rw [hfc] at hfind0
            simp at hfind0
          · refine ⟨cid, amt, c1, rfl, rfl, hcid, hamt, hex, rfl, hfc, ?_⟩
            dsimp only
            by_cases hle : c1.current_balance ≤ 0
            · rw [if_pos (by simp [hle]), if_pos hle]
            · rw [if_neg (by simp [hle]), if_neg hle]
        · simp at h

theorem createPayment_cases (s : Store) (b : PaymentBody) :
    (∃ e, createPayment s b = (s, Except.error e)) ∨
    (∃ s2 p, createPayment s b = (s2, Except.ok p)) := by
  obtain ⟨cidopt, amtopt, note⟩ := b
  cases cidopt with
  | none => exact Or.inl ⟨ApiError.validation, rfl⟩
  | some cid =>
    cases amtopt with
    | none => exact Or.inl ⟨ApiError.validation, rfl⟩
    | some amt =>
      unfold createPayment
      dsimp only
      split
      · exact Or.inl ⟨ApiError.validation, rfl⟩
      · split
        · split
          · exact Or.inr ⟨_, _, rfl⟩
          · exact Or.inr ⟨_, _, rfl⟩
        · exact Or.inl ⟨ApiError.txFailure, rfl⟩

theorem preserve_createPay (s : Store) (b : PaymentBody)
    (hwf : WF s) (hinv : BalanceInv s) :
    WF (createPayment s b).1 ∧ BalanceInv (createPayment s b).1 := by
  rcases createPayment_cases s b with ⟨e, heq⟩ | ⟨s2, p, heq⟩
  · rw [heq]
    exact ⟨hwf, hinv⟩
  · obtain ⟨cid, amt, c1, -, -, -, -, hex, hprow, -, hs2⟩ :=
      createPayment_ok s b s2 p heq
    rw [heq]
    obtain ⟨hb, ho, hp⟩ := hwf
    have hwf2 : WF { s with payments := s.payments ++ [p],
                            nextPaymentId := s.nextPaymentId + 1,
                            customers := decBalance s.customers cid amt } := by
      refine ⟨?_, ?_, ?_⟩
      · unfold decBalance
        exact bound_map_customers _ (decBalance_id_preserve _ _) _ _ hb
      · intro o ho'
        exact exists_id_decBalance _ _ _ _ (ho o ho')
      · intro q hq'
        rcases List.mem_append.mp hq' with hh | hh
        · exact exists_id_decBalance _ _ _ _ (hp q hh)
        · have hqc : q.customer_id = cid := by
            rw [List.mem_singleton.mp hh, hprow]
          rw [hqc]
          exact exists_id_decBalance _ _ _ _
            ((customerExists_iff s cid).mp hex)
    have hinv2 : BalanceInv { s with payments := s.payments ++ [p],
                                     nextPaymentId := s.nextPaymentId + 1,
                                     customers := decBalance s.customers cid amt } := by
      unfold BalanceInv
      exact ledgerInv_insertPayment _ _ _ _ _ _
        (by rw [hprow]) (by rw [hprow]) hinv
    rw [hs2]
    by_cases hle : c1.current_balance ≤ 0
    · rw [if_pos hle]
      obtain ⟨hb2, ho2, hp2⟩ := hwf2
      refine ⟨⟨hb2, ?_, hp2⟩, ?_⟩
      · intro o ho'
        obtain ⟨o0, ho0, hoc⟩ := exists_order_markPaid s.orders cid o ho'
        rw [hoc]
        exact ho2 o0 ho0
      · unfold BalanceInv
        exact ledgerInv_markPaid _ _ _ _ hinv2
    · rw [if_neg hle]
      exact ⟨hwf2, hinv2⟩

-- ============================================================
-- Preservation across any operation sequence
-- ============================================================

theorem applyOp_preserves (s : Store) (op : Op)
    (hwf : WF s) (hinv : BalanceInv s) :
    WF (applyOp s op) ∧ BalanceInv (applyOp s op) := by
  cases op with
  | createCust n p => exact preserve_createCust s n p hwf hinv
  | updateCust i n p => exact preserve_updateCust s i n p hwf hinv
  | deleteCust i => exact preserve_deleteCust s i hwf hinv
  | createOrds b => exact preserve_createOrds s b hwf hinv
  | createPay b => exact preserve_createPay s b hwf hinv

theorem run_preserves (ops : List Op) :
    ∀ s : Store, WF s → BalanceInv s → WF (run s ops) ∧ BalanceInv (run s ops) := by
  induction ops with
  | nil => intro s hwf hinv; exact ⟨hwf, hinv⟩
  | cons op rest ih =>
    intro s hwf hinv
    obtain ⟨hwf1, hinv1⟩ := applyOp_preserves s op hwf hinv
    exact ih (applyOp s op) hwf1 hinv1

-- ============================================================
-- Further helpers for the claim theorems
-- ============================================================

theorem customerExists_false (s : Store) (cid : Nat)
    (h : ∀ c ∈ s.customers, c.id ≠ cid) : customerExists s cid = false := by
  cases hb : customerExists s cid
  · rfl
  · exfalso
    obtain ⟨c, hc, hcid⟩ := (customerExists_iff s cid).mp hb
    exact h c hc hcid

theorem markPaid_point (cid : Nat) (o : OrderRow) :
    (if o.customer_id == cid && o.status == OrderStatus.pending then
       { o with status := OrderStatus.paid }
     else o) =
    (if o.customer_id = cid ∧ o.status = OrderStatus.pending then
       { o with status := OrderStatus.paid }
     else o) := by
  by_cases h1 : o.customer_id = cid
  · by_cases h2 : o.status = OrderStatus.pending
    · rw [if_pos (by simp [h1, h2]), if_pos ⟨h1, h2⟩]
    · rw [if_neg (by simp [h1, h2]), if_neg (by simp [h2])]
  · rw [if_neg (by simp [h1]), if_neg (by simp [h1])]

theorem markPaid_eq_map_prop (os : List OrderRow) (cid : Nat) :
    markPaid os cid = os.map (fun o =>
      if o.customer_id = cid ∧ o.status = OrderStatus.pending then
        { o with status := OrderStatus.paid }
      else o) := by
  unfold markPaid
  induction os with
  | nil => rfl
  | cons o rest ih =>
    simp only [List.map_cons]
    rw [markPaid_point, ih]

theorem filter_length_ne_of_mem (cs : List CustomerRow) (id : Nat)
    (h : ∃ c ∈ cs, c.id = id) :
    (cs.filter (fun c => !(c.id == id))).length ≠ cs.length := by
  induction cs with
  | nil =>
    obtain ⟨c0, hc0, -⟩ := h
    cases hc0
  | cons c rest ih =>
    obtain ⟨c0, hc0, hcid⟩ := h
    rw [List.filter_cons]
    rcases List.mem_cons.mp hc0 with heq | hmem
    · subst heq
      rw [if_neg (by simp [hcid])]
      have hle := List.length_filter_le (fun c => !(c.id == id)) rest
      simp only [List.length_cons]
      omega
    · by_cases hpc : (!(c.id == id)) = true
      · rw [if_pos hpc]
        simp only [List.length_cons]
        have := ih ⟨c0, hmem, hcid⟩
        omega
      · rw [if_neg hpc]
        have hle := List.length_filter_le (fun c => !(c.id == id)) rest
        simp only [List.length_cons]
        omega

theorem find?_decBalance (cs : List CustomerRow) (cid : Nat) (amt : Int)
    (c : CustomerRow) (h : cs.find? (fun x => x.id == cid) = some c) :
    (decBalance cs cid amt).find? (fun x => x.id == cid) =
      some { c with current_balance := c.current_balance - amt } := by
  induction cs with
  | nil => simp at h
  | cons c0 rest ih =>
    unfold decBalance
    simp only [List.map_cons]
    by_cases hc0 : (c0.id == cid) = true
    · simp only [List.find?, hc0] at h
      have hc0c : c0 = c := by
        simpa using h
      subst hc0c
      rw [if_pos hc0]
      simp only [List.find?, hc0]
    · have hc0f : (c0.id == cid) = false := by
        simpa using hc0
      simp only [List.find?, hc0f] at h
      rw [if_neg (by simp [hc0f])]
      simp only [List.find?, hc0f]
      exact ih h

theorem any_of_find?_some (cs : List CustomerRow) (q : CustomerRow → Bool)
    (c : CustomerRow) (h : cs.find? q = some c) : cs.any q = true :=
  List.any_eq_true.mpr ⟨c, List.mem_of_find?_eq_some h, List.find?_some h⟩


-- ============================================================
-- Claim theorems
-- ============================================================

/-- C1: for every customer and after every sequence of API calls on a
well-formed store that satisfies the ledger invariant (the empty database
qualifies: customer creation starts balances at 0, each order insertion adds
the entry's total_price, each payment insertion subtracts its amount), the
customer's current_balance equals the sum of total_price over that
customer's orders minus the sum of amount over that customer's payments. -/
theorem claim1_balance_invariant (s : Store) (ops : List Op)
    (hwf : WF s) (hinv : BalanceInv s) :
    ∀ c ∈ (run s ops).customers,
      c.current_balance = ordersTotal (run s ops).orders c.id -
        paymentsTotal (run s ops).payments c.id :=
  (run_preserves ops s hwf hinv).2

/-- A demo end-to-end scenario: create a customer, a one-entry order batch
of total 50, then a payment of 50. -/
def demoOps : List Op :=
  [Op.createCust (some "Ayse") none,
   Op.createOrds (OrdersBody.array
     [{ customer_id := 1, quantity := 10, unit_price := 5, total_price := 50,
        order_group_id := none }]),
   Op.createPay { customer_id := some 1, amount := some 50, note := none }]

theorem claim1_balance_invariant_witness :
    WF emptyStore ∧ BalanceInv emptyStore ∧
      ∀ c ∈ (run emptyStore demoOps).customers,
        c.current_balance = ordersTotal (run emptyStore demoOps).orders c.id -
          paymentsTotal (run emptyStore demoOps).payments c.id :=
  ⟨by decide, by decide,
   claim1_balance_invariant emptyStore demoOps (by decide) (by decide)⟩

/-- C7: payment creation rejects the request with a validation error and
performs no writes whenever customer_id or amount is missing or falsy; in
particular an amount of exactly zero is rejected, because the check tests
JS falsiness. -/
theorem claim7_payment_validation (s : Store) (b : PaymentBody)
    (h : b.customer_id = none ∨ b.customer_id = some 0 ∨
         b.amount = none ∨ b.amount = some 0) :
    createPayment s b = (s, Except.error ApiError.validation) := by
  obtain ⟨cidopt, amtopt, note⟩ := b
  dsimp only at h
  rcases h with h | h | h | h
  · subst h
    rfl
  · subst h
    cases amtopt with
    | none => rfl
    | some amt =>
      unfold createPayment
      dsimp only
      rw [if_pos (by simp)]
  · subst h
    cases cidopt with
    | none => rfl
    | some cid => rfl
  · subst h
    cases cidopt with
    | none => rfl
    | some cid =>
      unfold createPayment
      dsimp only
      rw [if_pos (by simp)]

theorem claim7_payment_validation_witness :
    ({ customer_id := some 1, amount := some 0,
       note := none } : PaymentBody).amount = some 0 ∧
    createPayment emptyStore
        { customer_id := some 1, amount := some 0, note := none } =
      (emptyStore, Except.error ApiError.validation) :=
  ⟨rfl, claim7_payment_validation emptyStore
    { customer_id := some 1, amount := some 0, note := none }
    (Or.inr (Or.inr (Or.inr rfl)))⟩

/-- C8: batch order creation rejects a non-array body and an empty array
with a validation error, leaving the store untouched (no orders inserted,
no balances changed). -/
theorem claim8_orders_validation (s : Store) :
    createOrders s OrdersBody.notArray = (s, Except.error ApiError.validation) ∧
    createOrders s (OrdersBody.array []) = (s, Except.error ApiError.validation) :=
  ⟨rfl, rfl⟩

/-- C3: batch order creation is atomic.  Any failing outcome leaves the
store exactly in its pre-call state, and a batch containing an entry whose
customer_id matches no customer (even after earlier valid entries) fails as
a whole with a transaction failure, rolled back to the pre-call store. -/
theorem claim3_orders_atomicity (s : Store) (body : OrdersBody) :
    (∀ e, (createOrders s body).2 = Except.error e → (createOrders s body).1 = s) ∧
    (∀ entries, body = OrdersBody.array entries →
      (∃ e ∈ entries, ∀ c ∈ s.customers, c.id ≠ e.customer_id) →
      createOrders s body = (s, Except.error ApiError.txFailure)) := by
  constructor
  · intro e he
    rcases createOrders_fst_cases s body with heq | ⟨entries, s2, ids, hb, hl, heq⟩
    · exact heq
    · subst hb
      by_cases h0 : entries.length = 0
      · unfold createOrders
        dsimp only
        rw [if_pos h0]
      · exfalso
        rw [createOrders_array_pos s entries h0, hl] at he
        simp at he
  · intro entries hb hbad
    subst hb
    obtain ⟨e0, he0, hnoc⟩ := hbad
    have h0 : ¬ entries.length = 0 := by
      intro h0
      rw [List.length_eq_zero] at h0
      subst h0
      cases he0
    have hfail : ordersLoop s entries = none :=
      ordersLoop_fails_on_unknown entries s
        ⟨e0, he0, customerExists_false s e0.customer_id hnoc⟩
    rw [createOrders_array_pos s entries h0, hfail]

/-- A batch whose first entry is valid but whose second references the
nonexistent customer 5. -/
def badBatch : OrdersBody :=
  OrdersBody.array
    [{ customer_id := 1, quantity := 2, unit_price := 5, total_price := 10,
       order_group_id := none },
     { customer_id := 5, quantity := 1, unit_price := 5, total_price := 5,
       order_group_id := none }]

/-- A small populated store: one customer with two pending orders totalling
150 and no payments. -/
def wStore : Store :=
  { customers := [{ id := 1, name := "A", phone := none,
                    current_balance := 150, created_at := 0 }],
    orders := [{ id := 1, customer_id := 1, quantity := 20, unit_price := 5,
                 total_price := 100, status := OrderStatus.pending,
                 order_group_id := none },
               { id := 2, customer_id := 1, quantity := 10, unit_price := 5,
                 total_price := 50, status := OrderStatus.pending,
                 order_group_id := none }],
    payments := [],
    nextCustomerId := 2, nextOrderId := 3, nextPaymentId := 1 }

theorem claim3_orders_atomicity_witness :
    ((createOrders wStore badBatch).2 = Except.error ApiError.txFailure →
      (createOrders wStore badBatch).1 = wStore) ∧
    createOrders wStore badBatch = (wStore, Except.error ApiError.txFailure) := by
  constructor
  · intro h
    exact (claim3_orders_atomicity wStore badBatch).1 ApiError.txFailure h
  · refine (claim3_orders_atomicity wStore badBatch).2
      [{ customer_id := 1, quantity := 2, unit_price := 5, total_price := 10,
         order_group_id := none },
       { customer_id := 5, quantity := 1, unit_price := 5, total_price := 5,
         order_group_id := none }] rfl ?_
    refine ⟨{ customer_id := 5, quantity := 1, unit_price := 5, total_price := 5,
              order_group_id := none }, ?_, ?_⟩
    · decide
    · decide

/-- C4: payment creation is atomic.  Any failing outcome leaves the store
exactly in its pre-call state (no payment row, no balance change, no status
change), and a successful call returns exactly the payment row that was
inserted, built from the request body. -/
theorem claim4_payment_atomicity (s : Store) (b : PaymentBody) :
    (∀ e, (createPayment s b).2 = Except.error e → (createPayment s b).1 = s) ∧
    (∀ s2 p, createPayment s b = (s2, Except.ok p) →
      s2.payments = s.payments ++ [p] ∧ p.id = s.nextPaymentId ∧
      b.customer_id = some p.customer_id ∧ b.amount = some p.amount ∧
      p.note = orNull b.note) := by
  constructor
  · intro e he
    rcases createPayment_cases s b with ⟨e2, heq⟩ | ⟨s2, p, heq⟩
    · rw [heq]
    · rw [heq] at he
      simp at he
  · intro s2 p heq
    obtain ⟨cid, amt, c1, hbc, hba, -, -, -, hprow, -, hs2⟩ :=
      createPayment_ok s b s2 p heq
    refine ⟨?_, ?_, ?_, ?_, ?_⟩
    · rw [hs2]
      by_cases hle : c1.current_balance ≤ 0
      · rw [if_pos hle]
      · rw [if_neg hle]
    · rw [hprow]
    · rw [hprow, hbc]
    · rw [hprow, hba]
    · rw [hprow]

theorem claim4_payment_atomicity_witness :
    ((createPayment wStore { customer_id := some 3, amount := some 40,
                             note := none }).2 =
        Except.error ApiError.txFailure →
      (createPayment wStore { customer_id := some 3, amount := some 40,
                              note := none }).1 = wStore) ∧
    ((createPayment wStore { customer_id := some 1, amount := some 40,
                             note := none }).1.payments =
      wStore.payments ++
        [{ id := 1, customer_id := 1, amount := 40, note := none }]) ∧
    (createPayment wStore { customer_id := some 3, amount := some 40,
                            note := none }) =
      (wStore, Except.error ApiError.txFailure) := by
  refine ⟨?_, ?_, ?_⟩
  · intro h
    exact (claim4_payment_atomicity wStore _).1 ApiError.txFailure h
  · exact ((claim4_payment_atomicity wStore
        { customer_id := some 1, amount := some 40, note := none }).2
      (createPayment wStore
        { customer_id := some 1, amount := some 40, note := none }).1
      { id := 1, customer_id := 1, amount := 40, note := none }
      (by rfl)).1
  · rfl

/-- C6: customer deletion checks the order count first, then the payment
count, both before any delete; each nonzero count fails with the matching
conflict and leaves the store untouched; with both counts zero, a
nonexistent id fails with NotFound, and only a customer with zero orders
and zero payments is actually deleted. -/
theorem claim6_delete_guards (s : Store) (id : Nat) :
    ((∃ o ∈ s.orders, o.customer_id = id) →
      deleteCustomer s id = (s, Except.error ApiError.conflictOrders)) ∧
    ((∀ o ∈ s.orders, o.customer_id ≠ id) →
      (∃ p ∈ s.payments, p.customer_id = id) →
      deleteCustomer s id = (s, Except.error ApiError.conflictPayments)) ∧
    ((∀ o ∈ s.orders, o.customer_id ≠ id) →
      (∀ p ∈ s.payments, p.customer_id ≠ id) →
      (∀ c ∈ s.customers, c.id ≠ id) →
      deleteCustomer s id = (s, Except.error ApiError.notFound)) ∧
    ((∀ o ∈ s.orders, o.customer_id ≠ id) →
      (∀ p ∈ s.payments, p.customer_id ≠ id) →
      (∃ c ∈ s.customers, c.id = id) →
      deleteCustomer s id =
        ({ s with customers := s.customers.filter (fun c => !(c.id == id)) },
         Except.ok ())) := by
  have horders_pos : (∃ o ∈ s.orders, o.customer_id = id) →
      (s.orders.filter (fun o => o.customer_id == id)).length > 0 := by
    rintro ⟨o, ho, hc⟩
    have hmem : o ∈ s.orders.filter (fun o => o.customer_id == id) :=
      List.mem_filter.mpr ⟨ho, by simp [hc]⟩
    exact List.length_pos.mpr (List.ne_nil_of_mem hmem)
  have horders_zero : (∀ o ∈ s.orders, o.customer_id ≠ id) →
      ¬ (s.orders.filter (fun o => o.customer_id == id)).length > 0 := by
    intro h
    have hnil : s.orders.filter (fun o => o.customer_id == id) = [] :=
      List.filter_eq_nil_iff.mpr (by intro o ho; simpa using h o ho)
    rw [hnil]
    simp
  have hpay_pos : (∃ p ∈ s.payments, p.customer_id = id) →
      (s.payments.filter (fun p => p.customer_id == id)).length > 0 := by
    rintro ⟨p, hp, hc⟩
    have hmem : p ∈ s.payments.filter (fun p => p.customer_id == id) :=
      List.mem_filter.mpr ⟨hp, by simp [hc]⟩
    exact List.length_pos.mpr (List.ne_nil_of_mem hmem)
  have hpay_zero : (∀ p ∈ s.payments, p.customer_id ≠ id) →
      ¬ (s.payments.filter (fun p => p.customer_id == id)).length > 0 := by
    intro h
    have hnil : s.payments.filter (fun p => p.customer_id == id) = [] :=
      List.filter_eq_nil_iff.mpr (by intro p hp; simpa using h p hp)
    rw [hnil]
    simp
  refine ⟨?_, ?_, ?_, ?_⟩
  · intro hex
    unfold deleteCustomer
    rw [if_pos (horders_pos hex)]
  · intro hno hex
    unfold deleteCustomer
    rw [if_neg (horders_zero hno), if_pos (hpay_pos hex)]
  · intro hno hnp hnc
    unfold deleteCustomer
    rw [if_neg (horders_zero hno), if_neg (hpay_zero hnp)]
    dsimp only
    have hself : s.customers.filter (fun c => !(c.id == id)) = s.customers :=
      List.filter_eq_self.mpr (by intro c hc; simpa using hnc c hc)
    rw [if_pos (by rw [hself])]
  · intro hno hnp hex
    unfold deleteCustomer
    rw [if_neg (horders_zero hno), if_neg (hpay_zero hnp)]
    dsimp only
    rw [if_neg (filter_length_ne_of_mem s.customers id hex)]

theorem claim6_delete_guards_witness :
    deleteCustomer wStore 1 = (wStore, Except.error ApiError.conflictOrders) ∧
    deleteCustomer wStore 9 = (wStore, Except.error ApiError.notFound) :=
  ⟨(claim6_delete_guards wStore 1).1 (by decide),
   (claim6_delete_guards wStore 9).2.2.1 (by decide) (by decide) (by decide)⟩

/-- C2: on every successful payment creation the customer's balance is
re-read from the final store; when it is ≤ 0 every pending order of that
customer — and only those — flips to paid (nothing else about any order
changes, regardless of totals or dates), and when it is > 0 the orders
table is completely unchanged. -/
theorem claim2_settlement (s : Store) (b : PaymentBody) (s2 : Store)
    (p : PaymentRow) (h : createPayment s b = (s2, Except.ok p)) :
    ∃ c, findCustomer s2 p.customer_id = some c ∧
      (c.current_balance ≤ 0 →
        s2.orders = s.orders.map (fun o =>
          if o.customer_id = p.customer_id ∧ o.status = OrderStatus.pending then
            { o with status := OrderStatus.paid }
          else o)) ∧
      (0 < c.current_balance → s2.orders = s.orders) := by
  obtain ⟨cid, amt, c1, hbc, hba, -, -, -, hprow, hfc, hs2⟩ :=
    createPayment_ok s b s2 p h
  have hpcid : p.customer_id = cid := by
    rw [hprow]
  rw [hpcid]
  refine ⟨c1, ?_, ?_, ?_⟩
  · rw [hs2]
    by_cases hle : c1.current_balance ≤ 0
    · rw [if_pos hle]
      exact hfc
    · rw [if_neg hle]
      exact hfc
  · intro hle
    rw [hs2, if_pos hle]
    exact markPaid_eq_map_prop s.orders cid
  · intro hlt
    rw [hs2, if_neg (by omega)]

/-- The store `wStore` after a payment of 150 by customer 1: balance 0,
both orders paid, the payment recorded. -/
def wAfter150 : Store :=
  { customers := [{ id := 1, name := "A", phone := none,
                    current_balance := 0, created_at := 0 }],
    orders := [{ id := 1, customer_id := 1, quantity := 20, unit_price := 5,
                 total_price := 100, status := OrderStatus.paid,
                 order_group_id := none },
               { id := 2, customer_id := 1, quantity := 10, unit_price := 5,
                 total_price := 50, status := OrderStatus.paid,
                 order_group_id := none }],
    payments := [{ id := 1, customer_id := 1, amount := 150, note := none }],
    nextCustomerId := 2, nextOrderId := 3, nextPaymentId := 2 }

def wPay150 : PaymentRow :=
  { id := 1, customer_id := 1, amount := 150, note := none }

theorem claim2_settlement_witness :
    (∃ c, findCustomer wAfter150 wPay150.customer_id = some c ∧
      (c.current_balance ≤ 0 →
        wAfter150.orders = wStore.orders.map (fun o =>
          if o.customer_id = wPay150.customer_id ∧
              o.status = OrderStatus.pending then
            { o with status := OrderStatus.paid }
          else o)) ∧
      (0 < c.current_balance → wAfter150.orders = wStore.orders)) ∧
    (createPayment wStore { customer_id := some 1, amount := some 100,
                            note := none }).1.orders = wStore.orders ∧
    findCustomer (createPayment wStore { customer_id := some 1,
                                         amount := some 100,
                                         note := none }).1 1 =
      some { id := 1, name := "A", phone := none, current_balance := 50,
             created_at := 0 } :=
  ⟨claim2_settlement wStore
     { customer_id := some 1, amount := some 150, note := none }
     wAfter150 wPay150 (by rfl), by rfl, by rfl⟩

/-- C9 (implicit): a strictly negative amount for an existing customer
passes the falsiness check, the payment row is inserted with that negative
amount, and the balance decrement `current_balance - amount` increases the
customer's balance by the absolute value of the amount. -/
theorem claim9_negative_amount (s : Store) (cid : Nat) (amt : Int)
    (note : Option String) (c : CustomerRow)
    (hfind : findCustomer s cid = some c)
    (hcid0 : cid ≠ 0) (hneg : amt < 0) :
    ∃ s2 p, createPayment s { customer_id := some cid, amount := some amt,
                              note := note } = (s2, Except.ok p) ∧
      p.amount = amt ∧ p ∈ s2.payments ∧
      ∃ c2, findCustomer s2 cid = some c2 ∧
        c2.current_balance = c.current_balance + |amt| := by
  have hamt0 : amt ≠ 0 := by
    omega
  have hv : ¬ ((cid == 0 || amt == 0) = true) := by
    simp [hcid0, hamt0]
  have hex : customerExists s cid = true :=
    any_of_find?_some s.customers _ c hfind
  have hf1 : (decBalance s.customers cid amt).find? (fun x => x.id == cid) =
      some { c with current_balance := c.current_balance - amt } :=
    find?_decBalance s.customers cid amt c hfind
  refine ⟨(createPayment s { customer_id := some cid, amount := some amt,
                             note := note }).1,
          { id := s.nextPaymentId, customer_id := cid, amount := amt,
            note := orNull note }, ?_, rfl, ?_, ?_⟩
  · have h2 : (createPayment s { customer_id := some cid,
                                 amount := some amt,
                                 note := note }).2 =
        Except.ok { id := s.nextPaymentId, customer_id := cid, amount := amt,
                    note := orNull note } := by
      unfold createPayment
      dsimp only
      rw [if_neg hv, if_pos hex]
    rw [← h2]
  · show _ ∈ (createPayment s { customer_id := some cid,
                                amount := some amt,
                                note := note }).1.payments
    unfold createPayment
    dsimp only
    rw [if_neg hv, if_pos hex]
    dsimp only
    split
    · exact List.mem_append_right _ (List.mem_singleton_self _)
    · exact List.mem_append_right _ (List.mem_singleton_self _)
  · refine ⟨{ c with current_balance := c.current_balance - amt }, ?_, ?_⟩
    · show findCustomer (createPayment s { customer_id := some cid,
                                           amount := some amt,
                                           note := note }).1 cid = _
      unfold createPayment
      dsimp only
      rw [if_neg hv, if_pos hex]
      dsimp only
      split
      · exact hf1
      · exact hf1
    · dsimp only
      rw [abs_of_neg hneg]
      omega

def wCust : CustomerRow :=
  { id := 1, name := "A", phone := none, current_balance := 150,
    created_at := 0 }

theorem claim9_negative_amount_witness :
    findCustomer wStore 1 = some wCust ∧ (1 : Nat) ≠ 0 ∧ (-50 : Int) < 0 ∧
    ∃ s2 p, createPayment wStore { customer_id := some 1, amount := some (-50),
                                   note := none } = (s2, Except.ok p) ∧
      p.amount = -50 ∧ p ∈ s2.payments ∧
      ∃ c2, findCustomer s2 1 = some c2 ∧
        c2.current_balance = wCust.current_balance + |(-50 : Int)| :=
  ⟨by rfl, by decide, by decide,
   claim9_negative_amount wStore 1 (-50) none wCust (by rfl) (by decide)
     (by decide)⟩

/-- C10 (implicit): a successful customer update with an omitted or falsy
phone overwrites the stored phone with NULL rather than preserving it; the
update leaves the orders and payments tables untouched and, for every
customer row, changes only the matched row's name and phone — its id,
current_balance and created_at, and every other row, are unchanged. -/
theorem claim10_update_phone (s : Store) (id : Nat) (nm : String)
    (phone : Option String) (hph : phone = none ∨ phone = some "")
    (s2 : Store) (ret : CustomerRow)
    (h : updateCustomer s id (some nm) phone = (s2, Except.ok ret)) :
    s2.orders = s.orders ∧ s2.payments = s.payments ∧
    s2.customers.length = s.customers.length ∧
    ∀ i : Nat, ∀ hi : i < s.customers.length,
      ∀ hi2 : i < s2.customers.length,
      s2.customers.get ⟨i, hi2⟩ =
        (if (s.customers.get ⟨i, hi⟩).id = id then
           { s.customers.get ⟨i, hi⟩ with name := jsTrim nm, phone := none }
         else s.customers.get ⟨i, hi⟩) := by
  have hnull : orNull phone = none := by
    rcases hph with h1 | h1 <;> subst h1 <;> rfl
  unfold updateCustomer at h
  dsimp only at h
  rw [hnull] at h
  split at h
  · simp at h
  · split at h
    · split at h
      · simp only [Prod.mk.injEq, Except.ok.injEq] at h
        obtain ⟨hs2, -⟩ := h
        subst hs2
        refine ⟨rfl, rfl, List.length_map _ _, ?_⟩
        intro i hi hi2
        simp only [List.get_eq_getElem, List.getElem_map]
        by_cases hid : s.customers[i].id = id
        · rw [if_pos (by simp [hid]), if_pos hid]
        · rw [if_neg (by simp [hid]), if_neg hid]
      · simp at h
    · simp at h

def wUpd : Store :=
  { customers := [{ id := 1, name := "B", phone := none,
                    current_balance := 150, created_at := 0 }],
    orders := wStore.orders, payments := wStore.payments,
    nextCustomerId := 2, nextOrderId := 3, nextPaymentId := 1 }

def wUpdRow : CustomerRow :=
  { id := 1, name := "B", phone := none, current_balance := 150,
    created_at := 0 }

theorem claim10_update_phone_witness :
    ((some "" : Option String) = none ∨ (some "" : Option String) = some "") ∧
    updateCustomer wStore 1 (some "B") (some "") = (wUpd, Except.ok wUpdRow) ∧
    (wUpd.orders = wStore.orders ∧ wUpd.payments = wStore.payments ∧
     wUpd.customers.length = wStore.customers.length ∧
     ∀ i : Nat, ∀ hi : i < wStore.customers.length,
       ∀ hi2 : i < wUpd.customers.length,
       wUpd.customers.get ⟨i, hi2⟩ =
         (if (wStore.customers.get ⟨i, hi⟩).id = 1 then
            { wStore.customers.get ⟨i, hi⟩ with
                                   name := jsTrim "B", phone := none }
          else wStore.customers.get ⟨i, hi⟩)) :=
  ⟨Or.inr rfl, by rfl,
   claim10_update_phone wStore 1 "B" (some "") (Or.inr rfl) wUpd wUpdRow
     (by rfl)⟩

theorem createCustomer_orders (s : Store) (n p : Option String) :
    (createCustomer s n p).1.orders = s.orders := by
  cases n with
  | none => rfl
  | some nm =>
    unfold createCustomer
    dsimp only
    split
    · rfl
    · rfl

theorem updateCustomer_orders (s : Store) (id : Nat) (n p : Option String) :
    (updateCustomer s id n p).1.orders = s.orders := by
  rcases updateCustomer_fst s id n p with heq | heq <;> rw [heq]

theorem deleteCustomer_orders (s : Store) (id : Nat) :
    (deleteCustomer s id).1.orders = s.orders := by
  unfold deleteCustomer
  split
  · rfl
  · split
    · rfl
    · dsimp only
      split
      · rfl
      · rfl

/-- C5: across every single API call, existing order rows stay at their
position with their id and customer unchanged; a paid order never becomes
pending again; and a pending order can turn paid only when the call is a
payment creation for that order's customer whose post-call re-read balance
is ≤ 0 (the auto-settlement rule). -/
theorem claim5_status_transitions (s : Store) (op : Op) (i : Nat)
    (hi : i < s.orders.length) :
    ∃ hi2 : i < (applyOp s op).orders.length,
      ((applyOp s op).orders.get ⟨i, hi2⟩).id = (s.orders.get ⟨i, hi⟩).id ∧
      ((applyOp s op).orders.get ⟨i, hi2⟩).customer_id =
        (s.orders.get ⟨i, hi⟩).customer_id ∧
      ((s.orders.get ⟨i, hi⟩).status = OrderStatus.paid →
        ((applyOp s op).orders.get ⟨i, hi2⟩).status = OrderStatus.paid) ∧
      ((s.orders.get ⟨i, hi⟩).status = OrderStatus.pending →
        ((applyOp s op).orders.get ⟨i, hi2⟩).status = OrderStatus.paid →
        ∃ b c, op = Op.createPay b ∧
          b.customer_id = some ((s.orders.get ⟨i, hi⟩).customer_id) ∧
          findCustomer (applyOp s op) ((s.orders.get ⟨i, hi⟩).customer_id) =
            some c ∧
          c.current_balance ≤ 0) := by
  have hcore : ∀ hi2 : i < (applyOp s op).orders.length,
      (applyOp s op).orders.get ⟨i, hi2⟩ = s.orders.get ⟨i, hi⟩ →
      ∃ hi2 : i < (applyOp s op).orders.length,
        ((applyOp s op).orders.get ⟨i, hi2⟩).id = (s.orders.get ⟨i, hi⟩).id ∧
        ((applyOp s op).orders.get ⟨i, hi2⟩).customer_id =
          (s.orders.get ⟨i, hi⟩).customer_id ∧
        ((s.orders.get ⟨i, hi⟩).status = OrderStatus.paid →
          ((applyOp s op).orders.get ⟨i, hi2⟩).status = OrderStatus.paid) ∧
        ((s.orders.get ⟨i, hi⟩).status = OrderStatus.pending →
          ((applyOp s op).orders.get ⟨i, hi2⟩).status = OrderStatus.paid →
          ∃ b c, op = Op.createPay b ∧
            b.customer_id = some ((s.orders.get ⟨i, hi⟩).customer_id) ∧
            findCustomer (applyOp s op)
              ((s.orders.get ⟨i, hi⟩).customer_id) = some c ∧
            c.current_balance ≤ 0) := by
    intro hi2 hget
    refine ⟨hi2, by rw [hget], by rw [hget], ?_, ?_⟩
    · intro hp
      rw [hget]
      exact hp
    · intro hpend hpaid
      rw [hget, hpend] at hpaid
      exact OrderStatus.noConfusion hpaid
  have hgen : (applyOp s op).orders = s.orders →
      ∃ hi2 : i < (applyOp s op).orders.length,
        ((applyOp s op).orders.get ⟨i, hi2⟩).id = (s.orders.get ⟨i, hi⟩).id ∧
        ((applyOp s op).orders.get ⟨i, hi2⟩).customer_id =
          (s.orders.get ⟨i, hi⟩).customer_id ∧
        ((s.orders.get ⟨i, hi⟩).status = OrderStatus.paid →
          ((applyOp s op).orders.get ⟨i, hi2⟩).status = OrderStatus.paid) ∧
        ((s.orders.get ⟨i, hi⟩).status = OrderStatus.pending →
          ((applyOp s op).orders.get ⟨i, hi2⟩).status = OrderStatus.paid →
          ∃ b c, op = Op.createPay b ∧
            b.customer_id = some ((s.orders.get ⟨i, hi⟩).customer_id) ∧
            findCustomer (applyOp s op)
              ((s.orders.get ⟨i, hi⟩).customer_id) = some c ∧
            c.current_balance ≤ 0) := by
    intro heq
    have hi2 : i < (applyOp s op).orders.length := by
      rw [heq]
      exact hi
    refine hcore hi2 ?_
    exact List.get_of_eq heq ⟨i, hi2⟩
  cases op with
  | createCust n p => exact hgen (createCustomer_orders s n p)
  | updateCust idq n p => exact hgen (updateCustomer_orders s idq n p)
  | deleteCust idq => exact hgen (deleteCustomer_orders s idq)
  | createOrds body =>
    rcases createOrders_fst_cases s body with heq | ⟨entries, s2x, ids, -, hl, heq⟩
    · apply hgen
      show (createOrders s body).1.orders = s.orders
      rw [heq]
    · obtain ⟨new, hnew⟩ := ordersLoop_orders_extend entries s s2x ids hl
      have happ : (applyOp s (Op.createOrds body)).orders = s.orders ++ new := by
        show (createOrders s body).1.orders = _
        rw [heq, hnew]
      have hi2 : i < (applyOp s (Op.createOrds body)).orders.length := by
        rw [happ, List.length_append]
        omega
      refine hcore hi2 ?_
      have h1 := List.get_of_eq happ ⟨i, hi2⟩
      rw [h1]
      simp only [List.get_eq_getElem]
      exact List.getElem_append_left hi
  | createPay b =>
    rcases createPayment_cases s b with ⟨e, heq⟩ | ⟨s2, p, heq⟩
    · apply hgen
      show (createPayment s b).1.orders = s.orders
      rw [heq]
    · obtain ⟨cid, amt, c1, hbc, hba, -, -, -, hprow, hfc, hs2⟩ :=
        createPayment_ok s b s2 p heq
      have happ : applyOp s (Op.createPay b) = s2 := by
        show (createPayment s b).1 = s2
        rw [heq]
      by_cases hle : c1.current_balance ≤ 0
      · have horders : (applyOp s (Op.createPay b)).orders =
            markPaid s.orders cid := by
          rw [happ, hs2, if_pos hle]
        have hi2 : i < (applyOp s (Op.createPay b)).orders.length := by
          rw [horders]
          unfold markPaid
          rw [List.length_map]
          exact hi
        have hget : (applyOp s (Op.createPay b)).orders.get ⟨i, hi2⟩ =
            (if (s.orders.get ⟨i, hi⟩).customer_id == cid &&
                (s.orders.get ⟨i, hi⟩).status == OrderStatus.pending then
               { s.orders.get ⟨i, hi⟩ with status := OrderStatus.paid }
             else s.orders.get ⟨i, hi⟩) := by
          have h1 := List.get_of_eq horders ⟨i, hi2⟩
          rw [h1]
          unfold markPaid
          simp only [List.get_eq_getElem, List.getElem_map]
        refine ⟨hi2, ?_, ?_, ?_, ?_⟩
        · rw [hget]
          split
          · rfl
          · rfl
        · rw [hget]
          split
          · rfl
          · rfl
        · intro hp
          rw [hget]
          split
          · rfl
          · exact hp
        · intro hpend hpaid
          rw [hget] at hpaid
          by_cases hcnd : ((s.orders.get ⟨i, hi⟩).customer_id == cid &&
              (s.orders.get ⟨i, hi⟩).status == OrderStatus.pending) = true
          · have hcid_eq : (s.orders.get ⟨i, hi⟩).customer_id = cid := by
              rw [Bool.and_eq_true] at hcnd
              simpa using hcnd.1
            refine ⟨b, c1, rfl, ?_, ?_, hle⟩
            · rw [hcid_eq]
              exact hbc
            · rw [hcid_eq, happ, hs2, if_pos hle]
              exact hfc
          · rw [if_neg hcnd, hpend] at hpaid
            exact OrderStatus.noConfusion hpaid
      · apply hgen
        show (createPayment s b).1.orders = s.orders
        rw [heq, hs2, if_neg hle]

def wPayOp : Op :=
  Op.createPay { customer_id := some 1, amount := some 150, note := none }

theorem claim5_status_transitions_witness :
    (0 : Nat) < wStore.orders.length ∧
    ∃ hi2 : 0 < (applyOp wStore wPayOp).orders.length,
      ((applyOp wStore wPayOp).orders.get ⟨0, hi2⟩).id =
        (wStore.orders.get ⟨0, by decide⟩).id ∧
      ((applyOp wStore wPayOp).orders.get ⟨0, hi2⟩).customer_id =
        (wStore.orders.get ⟨0, by decide⟩).customer_id ∧
      ((wStore.orders.get ⟨0, by decide⟩).status = OrderStatus.paid →
        ((applyOp wStore wPayOp).orders.get ⟨0, hi2⟩).status =
          OrderStatus.paid) ∧
      ((wStore.orders.get ⟨0, by decide⟩).status = OrderStatus.pending →
        ((applyOp wStore wPayOp).orders.get ⟨0, hi2⟩).status =
          OrderStatus.paid →
        ∃ b c, wPayOp = Op.createPay b ∧
          b.customer_id =
            some ((wStore.orders.get ⟨0, by decide⟩).customer_id) ∧
          findCustomer (applyOp wStore wPayOp)
            ((wStore.orders.get ⟨0, by decide⟩).customer_id) = some c ∧
          c.current_balance ≤ 0) :=
  ⟨by decide, claim5_status_transitions wStore wPayOp 0 (by decide)⟩

end Lavash
